import Mathlib

/-!
# Verification of the vimput formatter worker

Shallow embedding of `src/public/vimput-formatter.py`: the formatter
registry, candidate resolution (`find_formatter`), the availability map
(`get_available_formatters`), the formatting driver (`format_code`), and
the Unix double-fork launch sequence (`start_background`).

Host effects are modelled explicitly: executable lookup (`shutil.which`)
is a boolean oracle, and the subprocess invocation (`subprocess.run`) is
an oracle returning a `RunResult`.
-/

/-- The whitespace characters stripped by Python's `str.strip()`: the
ASCII controls U+0009 to U+000D, the file/group/record/unit separators
U+001C to U+001F, space, next line U+0085, no-break space U+00A0, the
Unicode space separators (Zs: U+1680, U+2000 to U+200A, U+202F, U+205F,
U+3000) and the line/paragraph separators U+2028 and U+2029. -/
def pySpaceChars : List Char :=
  ['\t', '\n', Char.ofNat 11, Char.ofNat 12, '\r',
   Char.ofNat 28, Char.ofNat 29, Char.ofNat 30, Char.ofNat 31, ' ',
   Char.ofNat 133, Char.ofNat 160, Char.ofNat 5760,
   Char.ofNat 8192, Char.ofNat 8193, Char.ofNat 8194, Char.ofNat 8195,
   Char.ofNat 8196, Char.ofNat 8197, Char.ofNat 8198, Char.ofNat 8199,
   Char.ofNat 8200, Char.ofNat 8201, Char.ofNat 8202,
   Char.ofNat 8232, Char.ofNat 8233, Char.ofNat 8239,
   Char.ofNat 8287, Char.ofNat 12288]

/-- Whether `str.strip()` removes the character `c`. -/
def isPySpace (c : Char) : Bool :=
  pySpaceChars.contains c

/-- Python's `str.strip()`: remove leading and trailing whitespace. -/
def pyStrip (s : String) : String :=
  ⟨((s.data.dropWhile isPySpace).reverse.dropWhile isPySpace).reverse⟩

/-- Python's `int(s)` on the non-negative decimal digit strings produced by
`str(pid)` (the only strings the daemon launcher parses). -/
def pyInt (s : String) : Nat :=
  s.data.foldl (fun n c => 10 * n + (c.toNat - 48)) 0

/-- A formatter candidate as stored in `FORMATTERS`: program name,
argument template, and the (always-`None`) third slot of the tuple. -/
abbrev FormatterCandidate := String × List String × Option String

/-- The formatter registry (module-level `FORMATTERS` dict), in its
declaration order. -/
def FORMATTERS : List (String × List FormatterCandidate) :=
  [ ("javascript",
      [ ("prettier", ["--parser", "babel", "--stdin-filepath", "file.js"], none),
        ("biome", ["format", "--stdin-file-path", "file.js"], none) ]),
    ("typescript",
      [ ("prettier", ["--parser", "typescript", "--stdin-filepath", "file.ts"], none),
        ("biome", ["format", "--stdin-file-path", "file.ts"], none) ]),
    ("jsx",
      [ ("prettier", ["--parser", "babel", "--stdin-filepath", "file.jsx"], none),
        ("biome", ["format", "--stdin-file-path", "file.jsx"], none) ]),
    ("tsx",
      [ ("prettier", ["--parser", "typescript", "--stdin-filepath", "file.tsx"], none),
        ("biome", ["format", "--stdin-file-path", "file.tsx"], none) ]),
    ("python",
      [ ("ruff", ["format", "-"], none),
        ("black", ["-"], none) ]),
    ("css",
      [ ("prettier", ["--parser", "css", "--stdin-filepath", "file.css"], none) ]),
    ("html",
      [ ("prettier", ["--parser", "html", "--stdin-filepath", "file.html"], none) ]),
    ("json",
      [ ("prettier", ["--parser", "json", "--stdin-filepath", "file.json"], none),
        ("biome", ["format", "--stdin-file-path", "file.json"], none) ]),
    ("markdown",
      [ ("prettier", ["--parser", "markdown", "--stdin-filepath", "file.md"], none) ]),
    ("yaml",
      [ ("prettier", ["--parser", "yaml", "--stdin-filepath", "file.yaml"], none) ]),
    ("graphql",
      [ ("prettier", ["--parser", "graphql", "--stdin-filepath", "file.graphql"], none) ]),
    ("bash",
      [ ("shfmt", ["-"], none) ]),
    ("sql",
      [ ("sqlfluff", ["fix", "-f", "ansi", "-"], none),
        ("sql-formatter", [], none) ]),
    ("go",
      [ ("gofmt", [], none) ]),
    ("rust",
      [ ("rustfmt", [], none) ]),
    ("java",
      [ ("google-java-format", ["-"], none) ]),
    ("c",
      [ ("clang-format", [], none) ]),
    ("cpp",
      [ ("clang-format", [], none) ]) ]

/-- Resolution (`find_formatter`): first available candidate for a language, `none`
when the language is unknown or no candidate's program is on the path.
`which` models `shutil.which` (availability of a program name). -/
def find_formatter (which : String → Bool) (language : String) :
    Option (String × List String) :=
  match FORMATTERS.lookup language with
  | none => none
  | some cands => (cands.find? (fun c => which c.1)).map (fun c => (c.1, c.2.1))

/-- Generic form of the availability map built by `get_available_formatters`:
one entry per language whose candidate list has an available program,
mapped to the first such program. -/
def availableList (which : String → Bool)
    (l : List (String × List FormatterCandidate)) : List (String × String) :=
  l.filterMap (fun e => (e.2.find? (fun c => which c.1)).map (fun c => (e.1, c.1)))

/-- Availability map (`get_available_formatters`): language to first available program,
for every language of the registry that has an available candidate. -/
def get_available_formatters (which : String → Bool) : List (String × String) :=
  availableList which FORMATTERS

/-- The request options dictionary, reduced to the two keys the code
reads: `options.get("indentType", "spaces")` and
`options.get("indentSize", 2)`. -/
structure FormatOptions where
  indentType : Option String
  indentSize : Option Int

/-- The outcome of `subprocess.run`: normal completion with exit code and
captured streams, `subprocess.TimeoutExpired`, or any other exception
raised while spawning/running (caught as `Exception as e`, carrying
`str(e)`). -/
inductive RunResult where
  | completed (returncode : Int) (stdout stderr : String)
  | timedOut
  | spawnError (msg : String)

/-- The argument-list construction inside `format_code`: the candidate's
template plus the per-tool indent flags from the `cmd ==` branch chain. -/
def build_full_cmd (cmd : String) (args : List String) (options : FormatOptions) :
    List String :=
  let indent_type := options.indentType.getD "spaces"
  let indent_size := options.indentSize.getD 2
  let full_cmd := cmd :: args
  if cmd = "prettier" then
    full_cmd ++ ["--tab-width", toString indent_size] ++
      (if indent_type = "tabs" then ["--use-tabs"] else [])
  else if cmd = "biome" then
    full_cmd ++ ["--indent-width", toString indent_size] ++
      (if indent_type = "tabs" then ["--indent-style", "tab"] else [])
  else if cmd = "shfmt" then
    full_cmd ++ ["-i", if indent_type = "spaces" then toString indent_size else "0"]
  else if cmd = "clang-format" then
    full_cmd ++ ["--style=\x7bIndentWidth: " ++ toString indent_size ++
      ", UseTab: " ++ (if indent_type = "tabs" then "Always" else "Never") ++ "\x7d"]
  else if cmd = "rustfmt" then
    full_cmd ++ ["--config", "tab_spaces=" ++ toString indent_size] ++
      (if indent_type = "tabs" then ["--config", "hard_tabs=true"] else [])
  else
    full_cmd

/-- Formatting driver (`format_code`): resolve a formatter, build the command, run it with the
source on stdin and a 10-second timeout, and classify the outcome.
`run` models `subprocess.run` applied to (full command, input, timeout).
Returns `(success, result, error)` exactly as the Python function does. -/
def format_code (which : String → Bool)
    (run : List String → String → Nat → RunResult)
    (code language : String) (options : FormatOptions) :
    Bool × String × Option String :=
  match find_formatter which language with
  | none => (false, code, some ("No formatter found for " ++ language))
  | some (cmd, args) =>
    let full_cmd := build_full_cmd cmd args options
    match run full_cmd code 10 with
    | RunResult.completed rc out err =>
      if rc = 0 then (true, out, none)
      else if out ≠ "" ∧ pyStrip out ≠ "" then (true, out, none)
      else (false, code,
        some (if err ≠ "" then err else cmd ++ " exited with code " ++ toString rc))
    | RunResult.timedOut => (false, code, some "Formatter timed out")
    | RunResult.spawnError msg => (false, code, some msg)

/-- Observable system-call events of the launcher's parent branch, in
program order after the first fork. -/
inductive LaunchEvent where
  | closedWriteEnd
  | readPipe
  | closedReadEnd
  | reapedChild (pid : Nat)
deriving DecidableEq

/-- The message the relay (first child) writes into the pipe before
exiting: `str(pid)` of the grandchild it forked. -/
def relay_pipe_message (grandchild_pid : Nat) : String :=
  Nat.repr grandchild_pid

/-- Python's `os.read(fd, 32)` on the pipe: at most 32 bytes of the data
the relay wrote (digit strings, so bytes coincide with characters). -/
def pipe_read32 (pipeData : String) : String :=
  ⟨pipeData.data.take 32⟩

/-- The parent branch of `start_background` on Unix: close the write end,
read up to 32 bytes from the pipe, strip, close the read end, reap the
first child, and return `int(real_pid)` when the pipe carried data, else
the first child's own pid. Returns the chosen pid and the event trace. -/
def start_background_parent (pipeData : String) (child_pid : Nat) :
    Nat × List LaunchEvent :=
  let real_pid := pyStrip (pipe_read32 pipeData)
  ((if real_pid ≠ "" then pyInt real_pid else child_pid),
   [LaunchEvent.closedWriteEnd, LaunchEvent.readPipe, LaunchEvent.closedReadEnd,
    LaunchEvent.reapedChild child_pid])

/-! ## Decimal digit strings: `str(n)` and `int(s)` -/

lemma toDigitsCore_succ (b fuel n : Nat) (ds : List Char) :
    Nat.toDigitsCore b (fuel + 1) n ds =
      if n / b = 0 then Nat.digitChar (n % b) :: ds
      else Nat.toDigitsCore b fuel (n / b) (Nat.digitChar (n % b) :: ds) := rfl

lemma digitChar_isDigit {k : Nat} (h : k < 10) : (Nat.digitChar k).isDigit = true := by
  interval_cases k <;> decide

lemma digitChar_toNat {k : Nat} (h : k < 10) : (Nat.digitChar k).toNat - 48 = k := by
  interval_cases k <;> decide

lemma toDigitsCore_mem (fuel : Nat) : ∀ (n : Nat) (ds : List Char),
    ∀ c ∈ Nat.toDigitsCore 10 fuel n ds, c ∈ ds ∨ c.isDigit = true := by
  induction fuel with
  | zero => intro n ds c hc; exact Or.inl hc
  | succ fuel ih =>
    intro n ds c hc
    rw [toDigitsCore_succ] at hc
    by_cases h : n / 10 = 0
    · rw [if_pos h] at hc
      rcases List.mem_cons.mp hc with h1 | h1
      · exact Or.inr (h1 ▸ digitChar_isDigit (Nat.mod_lt _ (by norm_num)))
      · exact Or.inl h1
    · rw [if_neg h] at hc
      rcases ih (n / 10) (Nat.digitChar (n % 10) :: ds) c hc with h1 | h1
      · rcases List.mem_cons.mp h1 with h2 | h2
        · exact Or.inr (h2 ▸ digitChar_isDigit (Nat.mod_lt _ (by norm_num)))
        · exact Or.inl h2
      · exact Or.inr h1

lemma toDigitsCore_fuel (n : Nat) : ∀ (fuel : Nat) (ds : List Char), n < fuel →
    Nat.toDigitsCore 10 fuel n ds = Nat.toDigitsCore 10 (n + 1) n ds := by
  induction n using Nat.strong_induction_on with
  | _ n ih =>
    intro fuel ds hf
    match fuel, hf with
    | fuel + 1, hf =>
      rw [toDigitsCore_succ, toDigitsCore_succ]
      by_cases h : n / 10 = 0
      · rw [if_pos h, if_pos h]
      · rw [if_neg h, if_neg h]
        have hn : 0 < n := by
          rcases Nat.eq_zero_or_pos n with h0 | h0
          · subst h0; simp at h
          · exact h0
        have hdiv : n / 10 < n := Nat.div_lt_self hn (by norm_num)
        rw [ih (n / 10) hdiv fuel _ (by omega), ih (n / 10) hdiv n _ (by omega)]

lemma toDigitsCore_eq_append (n : Nat) : ∀ ds : List Char,
    Nat.toDigitsCore 10 (n + 1) n ds = Nat.toDigitsCore 10 (n + 1) n [] ++ ds := by
  induction n using Nat.strong_induction_on with
  | _ n ih =>
    intro ds
    rw [toDigitsCore_succ, toDigitsCore_succ]
    by_cases h : n / 10 = 0
    · rw [if_pos h, if_pos h]; rfl
    · rw [if_neg h, if_neg h]
      have hn : 0 < n := by
        rcases Nat.eq_zero_or_pos n with h0 | h0
        · subst h0; simp at h
        · exact h0
      have hdiv : n / 10 < n := Nat.div_lt_self hn (by norm_num)
      rw [toDigitsCore_fuel (n / 10) n _ hdiv, toDigitsCore_fuel (n / 10) n _ hdiv,
        ih (n / 10) hdiv (Nat.digitChar (n % 10) :: ds), ih (n / 10) hdiv [Nat.digitChar (n % 10)],
        List.append_assoc]
      rfl

lemma toDigits_foldl (n : Nat) :
    (Nat.toDigits 10 n).foldl (fun a c => 10 * a + (c.toNat - 48)) 0 = n := by
  induction n using Nat.strong_induction_on with
  | _ n ih =>
    unfold Nat.toDigits
    rw [toDigitsCore_succ]
    by_cases h : n / 10 = 0
    · rw [if_pos h]
      have hlt : n < 10 := (Nat.div_eq_zero_iff (by norm_num)).mp h
      simp only [List.foldl_cons, List.foldl_nil]
      rw [digitChar_toNat (Nat.mod_lt _ (by norm_num))]
      omega
    · rw [if_neg h]
      have hn : 0 < n := by
        rcases Nat.eq_zero_or_pos n with h0 | h0
        · subst h0; simp at h
        · exact h0
      have hdiv : n / 10 < n := Nat.div_lt_self hn (by norm_num)
      rw [toDigitsCore_fuel (n / 10) n _ hdiv,
        toDigitsCore_eq_append (n / 10) [Nat.digitChar (n % 10)], List.foldl_append]
      have hval := ih (n / 10) hdiv
      unfold Nat.toDigits at hval
      rw [hval]
      simp only [List.foldl_cons, List.foldl_nil]
      rw [digitChar_toNat (Nat.mod_lt _ (by norm_num))]
      omega

lemma pyInt_repr (n : Nat) : pyInt (Nat.repr n) = n := toDigits_foldl n

lemma repr_data_isDigit (n : Nat) : ∀ c ∈ (Nat.repr n).data, c.isDigit = true := by
  intro c hc
  have hc2 : c ∈ Nat.toDigitsCore 10 (n + 1) n [] := hc
  rcases toDigitsCore_mem (n + 1) n [] c hc2 with h | h
  · cases h
  · exact h

lemma toDigitsCore_ne_nil : ∀ (fuel n : Nat) (ds : List Char), fuel ≠ 0 ∨ ds ≠ [] →
    Nat.toDigitsCore 10 fuel n ds ≠ [] := by
  intro fuel
  induction fuel with
  | zero =>
    intro n ds h
    rcases h with h | h
    · exact absurd rfl h
    · exact h
  | succ fuel ih =>
    intro n ds _
    rw [toDigitsCore_succ]
    by_cases h : n / 10 = 0
    · rw [if_pos h]; exact List.cons_ne_nil _ _
    · rw [if_neg h]
      exact ih (n / 10) (Nat.digitChar (n % 10) :: ds) (Or.inr (List.cons_ne_nil _ _))

lemma repr_data_ne_nil (n : Nat) : (Nat.repr n).data ≠ [] :=
  toDigitsCore_ne_nil (n + 1) n [] (Or.inl (by omega))

lemma repr_ne_empty (n : Nat) : Nat.repr n ≠ "" := by
  intro h
  exact repr_data_ne_nil n (congrArg String.data h)

/-! ## `str.strip()` on digit strings -/

lemma isDigit_not_pySpace {c : Char} (h : c.isDigit = true) : isPySpace c = false := by
  cases hps : isPySpace c with
  | false => rfl
  | true =>
    exfalso
    have hmem : c ∈ pySpaceChars := List.elem_iff.mp hps
    fin_cases hmem <;> exact absurd h (by decide)

lemma dropWhile_eq_self_of_all {p : Char → Bool} (l : List Char)
    (h : ∀ c ∈ l, p c = false) : l.dropWhile p = l := by
  cases l with
  | nil => rfl
  | cons a t =>
    rw [List.dropWhile_cons_of_neg]
    simp [h a (List.mem_cons_self a t)]

lemma pyStrip_of_digits {s : String} (h : ∀ c ∈ s.data, Char.isDigit c = true) :
    pyStrip s = s := by
  have h1 : ∀ c ∈ s.data, isPySpace c = false := fun c hc => isDigit_not_pySpace (h c hc)
  unfold pyStrip
  rw [dropWhile_eq_self_of_all s.data h1,
    dropWhile_eq_self_of_all s.data.reverse (fun c hc => h1 c (List.mem_reverse.mp hc)),
    List.reverse_reverse]

lemma pipe_read32_repr {n : Nat} (h : (Nat.repr n).data.length ≤ 32) :
    pipe_read32 (Nat.repr n) = Nat.repr n := by
  unfold pipe_read32
  rw [List.take_of_length_le h]

/-! ## `str(indentSize)` is never a flag token -/

lemma repr_not_mem_dash {m : Nat} : ('-' : Char) ∉ (Nat.repr m).data := by
  intro hmem
  exact absurd (repr_data_isDigit m _ hmem) (by decide)

lemma toString_int_ne_use_tabs (i : Int) : toString i ≠ "--use-tabs" := by
  cases i with
  | ofNat m =>
    intro h
    have hd : ('-' : Char) ∈ (Nat.repr m).data := by
      have h2 : (Nat.repr m).data = "--use-tabs".data := congrArg String.data h
      rw [h2]; decide
    exact repr_not_mem_dash hd
  | negSucc m =>
    intro h
    have h2 : ('-' : Char) :: (Nat.repr (m + 1)).data = "--use-tabs".data := by
      have h3 : (("-" : String) ++ Nat.repr (m + 1)).data = "--use-tabs".data :=
        congrArg String.data h
      rwa [String.data_append] at h3
    have h4 : (Nat.repr (m + 1)).data = ['-', 'u', 's', 'e', '-', 't', 'a', 'b', 's'] := by
      have := List.tail_eq_of_cons_eq h2
      simpa using this
    have hd : ('-' : Char) ∈ (Nat.repr (m + 1)).data := by rw [h4]; decide
    exact repr_not_mem_dash hd

/-! ## First-match characterisation of `List.find?` and the availability map -/

lemma find?_first {α : Type} (p : α → Bool) :
    ∀ (l : List α) (x : α), l.find? p = some x →
      ∃ i : Fin l.length, l.get i = x ∧ p x = true ∧
        ∀ j : Fin l.length, j.1 < i.1 → p (l.get j) = false := by
  intro l
  induction l with
  | nil => intro x h; simp [List.find?] at h
  | cons a t ih =>
    intro x h
    cases hpa : p a with
    | true =>
      rw [List.find?_cons_of_pos _ hpa] at h
      obtain rfl : a = x := Option.some.inj h
      refine ⟨⟨0, by simp⟩, rfl, hpa, ?_⟩
      intro j hj
      exact absurd hj (by simp)
    | false =>
      rw [List.find?_cons_of_neg _ (by simp [hpa])] at h
      obtain ⟨i, hget, hpx, hfirst⟩ := ih x h
      refine ⟨⟨i.1 + 1, by simp⟩, by simpa using hget, hpx, ?_⟩
      intro j hj
      match j, hj with
      | ⟨0, hj0⟩, _ => exact hpa
      | ⟨k + 1, hk⟩, hlt =>
        have hk2 : k < t.length := by simpa using hk
        have := hfirst ⟨k, hk2⟩ (by simpa using hlt)
        simpa using this

lemma lookup_availableList_not_mem (which : String → Bool) :
    ∀ (l : List (String × List FormatterCandidate)) (lang : String),
      lang ∉ l.map Prod.fst → (availableList which l).lookup lang = none := by
  intro l
  induction l with
  | nil => intro lang _; rfl
  | cons e t ih =>
    intro lang hmem
    have hm1 : lang ≠ e.1 := by
      intro h
      exact hmem (by simp [h])
    have hm2 : lang ∉ t.map Prod.fst := by
      intro h
      exact hmem (by simp [h])
    unfold availableList
    rw [List.filterMap_cons]
    cases hfind : (e.2.find? (fun c => which c.1)).map (fun c => (e.1, c.1)) with
    | none => exact ih lang hm2
    | some v =>
      rcases Option.map_eq_some'.mp hfind with ⟨c, _, hv⟩
      subst hv
      rw [List.lookup_cons]
      have hne : (lang == e.1) = false := beq_eq_false_iff_ne.mpr hm1
      rw [hne]
      exact ih lang hm2

lemma lookup_availableList (which : String → Bool) :
    ∀ (l : List (String × List FormatterCandidate)),
      (l.map Prod.fst).Nodup → ∀ lang : String,
      (availableList which l).lookup lang =
        ((l.lookup lang).bind (fun cands => cands.find? (fun c => which c.1))).map
          (fun c => c.1) := by
  intro l
  induction l with
  | nil => intro _ lang; rfl
  | cons e t ih =>
    obtain ⟨k, cs⟩ := e
    intro hnd lang
    have hnd2 : (t.map Prod.fst).Nodup := by
      rw [List.map_cons] at hnd
      exact hnd.of_cons
    have hkey : k ∉ t.map Prod.fst := by
      rw [List.map_cons] at hnd
      exact (List.nodup_cons.mp hnd).1
    unfold availableList
    rw [List.filterMap_cons, List.lookup_cons]
    by_cases heq : lang = k
    · have hbeq : (lang == k) = true := beq_iff_eq.mpr heq
      rw [hbeq]
      cases hfind : cs.find? (fun c => which c.1) with
      | none =>
        simp only [hfind, Option.map_none']
        have hnm : lang ∉ t.map Prod.fst := heq ▸ hkey
        have hnone := lookup_availableList_not_mem which t lang hnm
        unfold availableList at hnone
        rw [hnone]
        simp [hfind]
      | some c =>
        simp only [hfind, Option.map_some']
        rw [List.lookup_cons, hbeq]
        simp [hfind]
    · have hbeq : (lang == k) = false := beq_eq_false_iff_ne.mpr heq
      rw [hbeq]
      cases hfind : cs.find? (fun c => which c.1) with
      | none =>
        simp only [hfind, Option.map_none']
        simpa using ih hnd2 lang
      | some c =>
        simp only [hfind, Option.map_some']
        rw [List.lookup_cons, hbeq]
        simpa using ih hnd2 lang

/-! ## Claim theorems -/

/-- C10: every formatter invocation made by `format_code` uses the fixed
10-second timeout: the result is unchanged if the subprocess oracle is
replaced by one that ignores its timeout argument and always behaves as
at timeout 10, for every request (code, language and options included) —
so no request input can change the timeout passed to the subprocess. -/
theorem format_code_timeout_fixed_ten (which : String → Bool)
    (run : List String → String → Nat → RunResult)
    (code language : String) (options : FormatOptions) :
    format_code which run code language options =
      format_code which (fun c i _ => run c i 10) code language options := rfl

/-- C4: for a language with no registry entry, `format_code` fails with
the original code and the message naming the language. -/
theorem format_code_unknown_language (which : String → Bool)
    (run : List String → String → Nat → RunResult)
    (code language : String) (options : FormatOptions)
    (h : FORMATTERS.lookup language = none) :
    format_code which run code language options =
      (false, code, some ("No formatter found for " ++ language)) := by
  unfold format_code find_formatter
  rw [h]

/-- C4 witness: the request `{code: "x=1", language: "madeup"}` yields
`{success: false, result: "x=1", error: "No formatter found for madeup"}`. -/
theorem format_code_unknown_language_witness :
    format_code (fun _ => true) (fun _ _ _ => RunResult.timedOut)
      "x=1" "madeup" ⟨none, none⟩ =
      (false, "x=1", some "No formatter found for madeup") :=
  (format_code_unknown_language (fun _ => true) (fun _ _ _ => RunResult.timedOut)
    "x=1" "madeup" ⟨none, none⟩ (by decide)).trans (by decide)

/-- C6: when the spawned formatter times out, `format_code` returns
exactly `(false, code, "Formatter timed out")` — the original code, never
a truncated result. -/
theorem format_code_timed_out (which : String → Bool)
    (run : List String → String → Nat → RunResult)
    (code language : String) (options : FormatOptions)
    (cmd : String) (args : List String)
    (hf : find_formatter which language = some (cmd, args))
    (hr : run (build_full_cmd cmd args options) code 10 = RunResult.timedOut) :
    format_code which run code language options =
      (false, code, some "Formatter timed out") := by
  simp only [format_code, hf, hr]

/-- C6 witness: a resolved formatter whose run times out on `"x=1"`. -/
theorem format_code_timed_out_witness :
    format_code (fun c => c == "ruff") (fun _ _ _ => RunResult.timedOut)
      "x=1" "python" ⟨none, none⟩ = (false, "x=1", some "Formatter timed out") :=
  format_code_timed_out (fun c => c == "ruff") (fun _ _ _ => RunResult.timedOut)
    "x=1" "python" ⟨none, none⟩ "ruff" ["format", "-"] (by decide) rfl

/-- C2: non-zero exit with empty standard output fails with the original
code and an error that is the standard-error text when non-empty, else
the synthesized message naming the program and exit code. -/
theorem format_code_nonzero_empty_stdout (which : String → Bool)
    (run : List String → String → Nat → RunResult)
    (code language : String) (options : FormatOptions)
    (cmd : String) (args : List String) (rc : Int) (err : String)
    (hf : find_formatter which language = some (cmd, args))
    (hr : run (build_full_cmd cmd args options) code 10 = RunResult.completed rc "" err)
    (hrc : rc ≠ 0) :
    format_code which run code language options =
      (false, code,
        some (if err ≠ "" then err else cmd ++ " exited with code " ++ toString rc)) := by
  simp only [format_code, hf, hr]
  rw [if_neg hrc, if_neg (by simp)]

/-- C2 witness: a fake candidate that exits 1 with empty stdout and
stderr `"bad input"`, invoked on `"y=2"`, yields
`{success: false, result: "y=2", error: "bad input"}`. -/
theorem format_code_nonzero_empty_stdout_witness :
    format_code (fun c => c == "ruff") (fun _ _ _ => RunResult.completed 1 "" "bad input")
      "y=2" "python" ⟨none, none⟩ = (false, "y=2", some "bad input") :=
  (format_code_nonzero_empty_stdout (fun c => c == "ruff")
    (fun _ _ _ => RunResult.completed 1 "" "bad input") "y=2" "python" ⟨none, none⟩
    "ruff" ["format", "-"] 1 "bad input" (by decide) rfl (by decide)).trans (by decide)

/-- C1 counterexample: a formatter exiting 1 with the non-empty (but
whitespace-only) standard output `" "` is NOT treated as success:
`format_code` returns a failure, refuting the claim that any non-empty
stdout yields success. -/
theorem format_code_blank_stdout_not_success :
    format_code (fun c => c == "ruff") (fun _ _ _ => RunResult.completed 1 " " "warn")
      "x=1" "python" ⟨none, none⟩ = (false, "x=1", some "warn") ∧
    (" " : String) ≠ "" := by
  constructor
  · decide
  · decide

/-- C1 (amended): non-zero exit with standard output that is non-empty
after stripping whitespace (i.e. containing a non-whitespace character)
is still treated as success, with the stdout text as the result. -/
theorem format_code_nonzero_nonblank_stdout (which : String → Bool)
    (run : List String → String → Nat → RunResult)
    (code language : String) (options : FormatOptions)
    (cmd : String) (args : List String) (rc : Int) (out err : String)
    (hf : find_formatter which language = some (cmd, args))
    (hr : run (build_full_cmd cmd args options) code 10 = RunResult.completed rc out err)
    (hrc : rc ≠ 0) (hout : pyStrip out ≠ "") :
    format_code which run code language options = (true, out, none) := by
  have hne : out ≠ "" := by
    intro h
    subst h
    exact hout rfl
  simp only [format_code, hf, hr]
  rw [if_neg hrc, if_pos ⟨hne, hout⟩]

/-- C1 witness: exit code 1 with stdout `"ok\n"` and a warning on stderr
still yields success carrying the stdout text. -/
theorem format_code_nonzero_nonblank_stdout_witness :
    format_code (fun c => c == "ruff") (fun _ _ _ => RunResult.completed 1 "ok\n" "warn")
      "x=1" "python" ⟨none, none⟩ = (true, "ok\n", none) :=
  format_code_nonzero_nonblank_stdout (fun c => c == "ruff")
    (fun _ _ _ => RunResult.completed 1 "ok\n" "warn") "x=1" "python" ⟨none, none⟩
    "ruff" ["format", "-"] 1 "ok\n" "warn" (by decide) rfl (by decide) (by decide)

/-- C3: on every failure path of `format_code` (unknown language, no
available candidate, non-zero exit with blank stdout, timeout, spawn
exception) the result component is the original input code byte-for-byte,
hence non-empty whenever the input was. -/
theorem format_code_failure_returns_code (which : String → Bool)
    (run : List String → String → Nat → RunResult)
    (code language : String) (options : FormatOptions)
    (h : (format_code which run code language options).1 = false) :
    (format_code which run code language options).2.1 = code ∧
    (code ≠ "" → (format_code which run code language options).2.1 ≠ "") := by
  suffices hs : (format_code which run code language options).2.1 = code by
    refine ⟨hs, ?_⟩
    intro hc
    rw [hs]
    exact hc
  revert h
  unfold format_code
  cases hf : find_formatter which language with
  | none => intro _; rfl
  | some f =>
    obtain ⟨cmd, args⟩ := f
    simp only []
    cases hr : run (build_full_cmd cmd args options) code 10 with
    | completed rc out err =>
      dsimp only
      by_cases h0 : rc = 0
      · rw [if_pos h0]
        intro h
        exact absurd h (by simp)
      · rw [if_neg h0]
        by_cases hb : out ≠ "" ∧ pyStrip out ≠ ""
        · rw [if_pos hb]
          intro h
          exact absurd h (by simp)
        · rw [if_neg hb]
          intro _
          rfl
    | timedOut => intro _; rfl
    | spawnError msg => intro _; rfl

/-- C3 witness: a timed-out run on input `"x=1"` fails and returns the
original, non-empty input as the result. -/
theorem format_code_failure_returns_code_witness :
    (format_code (fun c => c == "ruff") (fun _ _ _ => RunResult.timedOut)
      "x=1" "python" ⟨none, none⟩).2.1 = "x=1" ∧
    ("x=1" ≠ "" →
      (format_code (fun c => c == "ruff") (fun _ _ _ => RunResult.timedOut)
        "x=1" "python" ⟨none, none⟩).2.1 ≠ "") :=
  format_code_failure_returns_code (fun c => c == "ruff")
    (fun _ _ _ => RunResult.timedOut) "x=1" "python" ⟨none, none⟩ (by decide)

/-- C5: `find_formatter` returns `none` when the language has no registry
entry or no candidate is available, and otherwise the first candidate in
declaration order whose program is available (as a pure function of the
availability oracle, ties broken purely by declaration order). -/
theorem find_formatter_first_available (which : String → Bool) (language : String) :
    (FORMATTERS.lookup language = none → find_formatter which language = none) ∧
    (∀ cands, FORMATTERS.lookup language = some cands →
      ((find_formatter which language = none ↔ ∀ c ∈ cands, which c.1 = false) ∧
       (∀ cmd args, find_formatter which language = some (cmd, args) →
         ∃ i : Fin cands.length, (cands.get i).1 = cmd ∧ (cands.get i).2.1 = args ∧
           which cmd = true ∧
           ∀ j : Fin cands.length, j.1 < i.1 → which ((cands.get j).1) = false))) := by
  constructor
  · intro h
    unfold find_formatter
    rw [h]
  · intro cands hc
    constructor
    · unfold find_formatter
      rw [hc]
      simp only [Option.map_eq_none', List.find?_eq_none, Bool.not_eq_true]
    · intro cmd args hf
      unfold find_formatter at hf
      rw [hc] at hf
      simp only [Option.map_eq_some'] at hf
      obtain ⟨c, hfind, hmap⟩ := hf
      obtain ⟨i, hget, hp, hfirst⟩ := find?_first _ cands c hfind
      obtain ⟨h1, h2⟩ := Prod.mk.injEq _ _ _ _ ▸ hmap
      refine ⟨i, by rw [hget, h1], by rw [hget, h2], h1 ▸ hp, hfirst⟩

/-- C5 witness: with only `black` available, `find_formatter` for
`python` skips `ruff` (index 0, unavailable) and returns `black`
(index 1), the first available candidate in declaration order. -/
theorem find_formatter_first_available_witness :
    ∃ i : Fin ([(("ruff" : String), (["format", "-"] : List String),
        (none : Option String)), ("black", ["-"], none)].length),
      (([(("ruff" : String), (["format", "-"] : List String), (none : Option String)),
        ("black", ["-"], none)].get i).1 = "black" ∧
      (([(("ruff" : String), (["format", "-"] : List String), (none : Option String)),
        ("black", ["-"], none)].get i).2.1 = ["-"] ∧
      ((fun c => c == "black") "black" = true ∧
      ∀ j : Fin ([(("ruff" : String), (["format", "-"] : List String),
          (none : Option String)), ("black", ["-"], none)].length),
        j.1 < i.1 →
        (fun c => c == "black")
          (([(("ruff" : String), (["format", "-"] : List String), (none : Option String)),
            ("black", ["-"], none)].get j).1) = false))) := by
  obtain ⟨i, hi1, hi2, hi3, hi4⟩ :=
    ((find_formatter_first_available (fun c => c == "black") "python").2
      [("ruff", ["format", "-"], none), ("black", ["-"], none)] (by decide)).2
      "black" ["-"] (by decide)
  exact ⟨i, hi1, hi2, hi3, hi4⟩

/-- C8: for every language and every host availability, the map served by
`get_available_formatters` (GET /formatters) has an entry for a language
exactly when `find_formatter` resolves a candidate for it, and that entry
is the resolved candidate's program name. -/
theorem get_available_formatters_matches_find_formatter (which : String → Bool)
    (language : String) :
    (get_available_formatters which).lookup language =
      (find_formatter which language).map Prod.fst := by
  unfold get_available_formatters find_formatter
  rw [lookup_availableList which FORMATTERS (by decide) language]
  cases h : FORMATTERS.lookup language with
  | none => simp
  | some cands =>
    simp only [Option.some_bind]
    cases hfind : cands.find? (fun c => which c.1) with
    | none => simp
    | some c => simp

/-- C7: for any indent options, a registry candidate outside the five
branched tools (e.g. `black`, `ruff`, `gofmt`) gets exactly its template
and no indent flags (in particular no width flag); and a `prettier`
candidate's built arguments contain the `--use-tabs` toggle exactly when
the indent style is `tabs`. -/
theorem build_full_cmd_tabs_capabilities (options : FormatOptions) :
    (∀ lang cands, (lang, cands) ∈ FORMATTERS → ∀ c ∈ cands,
        c.1 ≠ "prettier" → c.1 ≠ "biome" → c.1 ≠ "shfmt" →
        c.1 ≠ "clang-format" → c.1 ≠ "rustfmt" →
        build_full_cmd c.1 c.2.1 options = c.1 :: c.2.1) ∧
    (∀ lang cands, (lang, cands) ∈ FORMATTERS → ∀ c ∈ cands, c.1 = "prettier" →
        ("--use-tabs" ∈ build_full_cmd c.1 c.2.1 options ↔
          options.indentType.getD "spaces" = "tabs")) := by
  constructor
  · intro lang cands _ c _ h1 h2 h3 h4 h5
    simp only [build_full_cmd]
    simp [h1, h2, h3, h4, h5]
  · intro lang cands hmem c hc hcmd
    have key : ∀ e ∈ FORMATTERS, ∀ c2 ∈ e.2, "--use-tabs" ∉ c2.2.1 := by decide
    have knu : "--use-tabs" ∉ c.2.1 := key (lang, cands) hmem c hc
    have hts : ("--use-tabs" : String) ≠ toString (options.indentSize.getD 2) :=
      fun h => toString_int_ne_use_tabs _ h.symm
    rw [hcmd]
    simp only [build_full_cmd, if_true]
    by_cases ht : options.indentType.getD "spaces" = "tabs"
    · rw [if_pos ht]
      simp [ht]
    · rw [if_neg ht]
      simp [ht, knu, hts]

/-- C7 witness: with `{style: tabs, width: 4}`, `black` receives exactly
its template (no indent flags) and prettier's built arguments contain
`--use-tabs`. -/
theorem build_full_cmd_tabs_capabilities_witness :
    build_full_cmd "black" ["-"] ⟨some "tabs", some 4⟩ = "black" :: ["-"] ∧
    ("--use-tabs" ∈ build_full_cmd "prettier"
        ["--parser", "babel", "--stdin-filepath", "file.js"] ⟨some "tabs", some 4⟩ ↔
      (FormatOptions.mk (some "tabs") (some 4)).indentType.getD "spaces" = "tabs") := by
  constructor
  · exact (build_full_cmd_tabs_capabilities ⟨some "tabs", some 4⟩).1 "python"
      [("ruff", ["format", "-"], none), ("black", ["-"], none)] (by decide)
      ("black", ["-"], none) (by decide)
      (by decide) (by decide) (by decide) (by decide) (by decide)
  · exact (build_full_cmd_tabs_capabilities ⟨some "tabs", some 4⟩).2 "javascript"
      [("prettier", ["--parser", "babel", "--stdin-filepath", "file.js"], none),
        ("biome", ["format", "--stdin-file-path", "file.js"], none)] (by decide)
      ("prettier", ["--parser", "babel", "--stdin-filepath", "file.js"], none)
      (by decide) rfl

/-- C9: the Unix launcher's parent branch returns the grandchild (service)
pid written into the pipe by the relay, reaps the first child before
returning, and when the pipe closes with no data falls back to the first
child's own pid instead of failing. (The pid string fits the 32-byte
read for every real process identifier.) -/
theorem start_background_pid_handoff (gpid cpid : Nat)
    (hlen : (Nat.repr gpid).data.length ≤ 32) :
    (start_background_parent (relay_pipe_message gpid) cpid).1 = gpid ∧
    (start_background_parent "" cpid).1 = cpid ∧
    LaunchEvent.reapedChild cpid ∈ (start_background_parent (relay_pipe_message gpid) cpid).2 ∧
    LaunchEvent.reapedChild cpid ∈ (start_background_parent "" cpid).2 := by
  refine ⟨?_, ?_, ?_, ?_⟩
  · unfold start_background_parent relay_pipe_message
    rw [pipe_read32_repr hlen, pyStrip_of_digits (repr_data_isDigit gpid)]
    dsimp only
    rw [if_pos (repr_ne_empty gpid)]
    exact pyInt_repr gpid
  · unfold start_background_parent
    rw [show pipe_read32 "" = "" from rfl, show pyStrip "" = "" from rfl]
    dsimp only
    rw [if_neg (by simp)]
  · simp [start_background_parent]
  · simp [start_background_parent]

/-- C9 witness: relay hands off pid 43210 through the pipe with first
child pid 999; the empty-pipe fallback returns 999. -/
theorem start_background_pid_handoff_witness :
    (start_background_parent (relay_pipe_message 43210) 999).1 = 43210 ∧
    (start_background_parent "" 999).1 = 999 ∧
    LaunchEvent.reapedChild 999 ∈ (start_background_parent (relay_pipe_message 43210) 999).2 ∧
    LaunchEvent.reapedChild 999 ∈ (start_background_parent "" 999).2 :=
  start_background_pid_handoff 43210 999 (by decide)
